import Mathlib

/-!
Shallow embedding of the lending core of the `library_python` repository:
the late/damage fee calculator (`models/borrow.py`), the borrow state
machine (`Borrow.create`, `approve_pickup`, `return_book`, `renew`,
`cancel`), the reservation queue (`models/reservation.py`), the inventory
clamp (`Book.update_available_copies` in `models/book.py`), and the fine
ledger (`models/fine.py`, `User.pay_fine` / `add_fine` / `add_violation`
in `models/user.py`).

Timestamps are rational numbers of seconds (Python `datetime` differences
go through `timedelta.total_seconds()`); money amounts are rationals
(Python floats hold exact small decimal values in all code paths modelled
here).  The relational store is a record of lists; SQL row updates become
`List.map` that rewrites the matching row.
-/

namespace Library

/-! ## Config (config/config.py) -/

namespace Config

def MAX_BORROW_LIMIT : Nat := 5
def BORROW_DURATION_DAYS : ℚ := 14
def PENDING_PICKUP_HOURS : ℚ := 48
def RESERVATION_HOLD_HOURS : ℚ := 48
def GRACE_PERIOD_MINUTES : ℚ := 60
def LATE_FEE_HOURLY : ℚ := 2000
def LATE_FEE_DAILY : ℚ := 10000

end Config

/-! ## Fee calculator (models/borrow.py) -/

/-- Python `int(x) + (1 if x % 1 > 0 else 0)` for the nonnegative
quantities rounded in `calculate_late_fee` (`int` truncates toward zero,
which agrees with `Int.floor` on the nonnegative inputs that reach it;
`x % 1` is the fractional part). -/
def pyRoundUp (x : ℚ) : ℤ :=
  Int.floor x + (if x - Int.floor x > 0 then 1 else 0)

/-- `Borrow.calculate_late_fee(due_date, return_date)`: tiered late fee
with a grace period.  `due` and `ret` are timestamps in seconds. -/
def calculate_late_fee (due ret : ℚ) : ℚ :=
  if ret ≤ due then 0
  else
    let total_minutes := (ret - due) / 60
    if total_minutes ≤ Config.GRACE_PERIOD_MINUTES then 0
    else
      let effective_minutes := total_minutes - Config.GRACE_PERIOD_MINUTES
      let effective_hours := effective_minutes / 60
      let effective_days := effective_hours / 24
      if effective_hours < 24 then
        (pyRoundUp effective_hours : ℚ) * Config.LATE_FEE_HOURLY
      else
        (pyRoundUp effective_days : ℚ) * Config.LATE_FEE_DAILY

/-- `Borrow.calculate_damage_fee(condition, book_value)`. -/
def calculate_damage_fee (condition : String) (book_value : ℚ) : ℚ :=
  if condition = "good" then 0
  else if condition = "minor_damage" then book_value * (20 / 100)
  else if condition = "major_damage" then book_value + 15000
  else if condition = "lost" then book_value + 20000
  else 0

theorem pyRoundUp_eq_ceil (x : ℚ) : pyRoundUp x = Int.ceil x := by
  unfold pyRoundUp
  have hfr : Int.fract x = x - Int.floor x := rfl
  by_cases h : x - (Int.floor x : ℚ) > 0
  · rw [if_pos h]
    have hne : Int.fract x ≠ 0 := by rw [hfr]; exact ne_of_gt h
    have h2 := (or_iff_right hne).mp (Int.fract_eq_zero_or_add_one_sub_ceil x)
    rw [hfr] at h2
    have h3 : ((⌈x⌉ : ℤ) : ℚ) = ((⌊x⌋ : ℤ) : ℚ) + 1 := by linarith
    exact_mod_cast h3.symm
  · rw [if_neg h]
    have hle : x ≤ (⌊x⌋ : ℚ) := by linarith [not_lt.mp h]
    have hx : ((⌊x⌋ : ℤ) : ℚ) = x := le_antisymm (Int.floor_le x) hle
    rw [add_zero, ← hx, Int.floor_intCast, Int.ceil_intCast]

/-! ## Closed-form lemmas for the fee calculator -/

/-- The `total_minutes` local of `calculate_late_fee`. -/
def delayMinutes (due ret : ℚ) : ℚ := (ret - due) / 60

/-- The `effective_hours` local of `calculate_late_fee` (delay minus the
60-minute grace period, in hours). -/
def effectiveHours (due ret : ℚ) : ℚ :=
  (delayMinutes due ret - Config.GRACE_PERIOD_MINUTES) / 60

/-- Return falls in the hourly-charged branch of `calculate_late_fee`. -/
def hourlyCharged (due ret : ℚ) : Prop :=
  due < ret ∧ Config.GRACE_PERIOD_MINUTES < delayMinutes due ret ∧
    effectiveHours due ret < 24

/-- Return falls in the daily-charged branch of `calculate_late_fee`. -/
def dailyCharged (due ret : ℚ) : Prop :=
  due < ret ∧ Config.GRACE_PERIOD_MINUTES < delayMinutes due ret ∧
    24 ≤ effectiveHours due ret

theorem calculate_late_fee_eq (due ret : ℚ) :
    calculate_late_fee due ret =
      if ret ≤ due then 0
      else if delayMinutes due ret ≤ Config.GRACE_PERIOD_MINUTES then 0
      else if effectiveHours due ret < 24 then
        (⌈effectiveHours due ret⌉ : ℚ) * Config.LATE_FEE_HOURLY
      else
        (⌈effectiveHours due ret / 24⌉ : ℚ) * Config.LATE_FEE_DAILY := by
  unfold calculate_late_fee delayMinutes effectiveHours
  simp only [pyRoundUp_eq_ceil]
  rfl

theorem fee_on_time (due ret : ℚ) (h : ret ≤ due) :
    calculate_late_fee due ret = 0 := by
  rw [calculate_late_fee_eq, if_pos h]

theorem fee_within_grace (due ret : ℚ) (h : due < ret)
    (hg : delayMinutes due ret ≤ Config.GRACE_PERIOD_MINUTES) :
    calculate_late_fee due ret = 0 := by
  rw [calculate_late_fee_eq, if_neg (not_le.mpr h), if_pos hg]

theorem fee_hourly (due ret : ℚ) (h : due < ret)
    (hg : Config.GRACE_PERIOD_MINUTES < delayMinutes due ret)
    (hh : effectiveHours due ret < 24) :
    calculate_late_fee due ret =
      (⌈effectiveHours due ret⌉ : ℚ) * Config.LATE_FEE_HOURLY := by
  rw [calculate_late_fee_eq, if_neg (not_le.mpr h), if_neg (not_le.mpr hg),
    if_pos hh]

theorem fee_daily (due ret : ℚ) (h : due < ret)
    (hg : Config.GRACE_PERIOD_MINUTES < delayMinutes due ret)
    (hh : 24 ≤ effectiveHours due ret) :
    calculate_late_fee due ret =
      (⌈effectiveHours due ret / 24⌉ : ℚ) * Config.LATE_FEE_DAILY := by
  rw [calculate_late_fee_eq, if_neg (not_le.mpr h), if_neg (not_le.mpr hg),
    if_neg (not_lt.mpr hh)]

theorem delayMinutes_mono (due r1 r2 : ℚ) (h : r1 ≤ r2) :
    delayMinutes due r1 ≤ delayMinutes due r2 := by
  unfold delayMinutes
  exact div_le_div_of_nonneg_right (by linarith) (by norm_num)

theorem effectiveHours_mono (due r1 r2 : ℚ) (h : r1 ≤ r2) :
    effectiveHours due r1 ≤ effectiveHours due r2 := by
  unfold effectiveHours
  have := delayMinutes_mono due r1 r2 h
  exact div_le_div_of_nonneg_right (by linarith) (by norm_num)

theorem fee_nonneg (due ret : ℚ) : 0 ≤ calculate_late_fee due ret := by
  rw [calculate_late_fee_eq]
  split_ifs with h1 h2 h3
  · exact le_refl 0
  · exact le_refl 0
  · have hh : 0 ≤ (⌈effectiveHours due ret⌉ : ℚ) := by
      exact_mod_cast Int.ceil_nonneg (by
        unfold effectiveHours delayMinutes Config.GRACE_PERIOD_MINUTES
        push_neg at h1 h2
        unfold delayMinutes Config.GRACE_PERIOD_MINUTES at h2
        have : (0:ℚ) < (ret - due) / 60 - 60 := by linarith
        positivity)
    have : (0:ℚ) ≤ Config.LATE_FEE_HOURLY := by norm_num [Config.LATE_FEE_HOURLY]
    exact mul_nonneg hh this
  · have hh : 0 ≤ (⌈effectiveHours due ret / 24⌉ : ℚ) := by
      exact_mod_cast Int.ceil_nonneg (by
        push_neg at h3
        have h24 : (24:ℚ) ≤ effectiveHours due ret := h3
        positivity)
    have : (0:ℚ) ≤ Config.LATE_FEE_DAILY := by norm_num [Config.LATE_FEE_DAILY]
    exact mul_nonneg hh this

/-- C1: `calculate_late_fee` implements the spec's piecewise definition:
zero when returned on time or within the 60-minute grace period; past the
grace period it charges `ceil(effectiveHours) * hourlyRate` while the
effective delay is below 24 hours and `ceil(effectiveDays) * dailyRate`
from 24 effective hours on; at exactly 24 effective hours the daily tier
applies, charging `1 * dailyRate`; the three spec scenarios (30 min late,
125 min late, 2 days late against grace 60 min, hourly 2000, daily 10000)
yield fees 0, 4000 and 20000. -/
theorem c1_late_fee_piecewise (due ret : ℚ) :
    (ret ≤ due → calculate_late_fee due ret = 0) ∧
    (due < ret → delayMinutes due ret ≤ 60 → calculate_late_fee due ret = 0) ∧
    (due < ret → 60 < delayMinutes due ret → effectiveHours due ret < 24 →
      calculate_late_fee due ret = (⌈effectiveHours due ret⌉ : ℚ) * 2000) ∧
    (due < ret → 60 < delayMinutes due ret → 24 ≤ effectiveHours due ret →
      calculate_late_fee due ret = (⌈effectiveHours due ret / 24⌉ : ℚ) * 10000) ∧
    (due < ret → effectiveHours due ret = 24 →
      calculate_late_fee due ret = 1 * 10000) ∧
    (calculate_late_fee 0 1800 = 0 ∧ calculate_late_fee 0 7500 = 4000 ∧
      calculate_late_fee 0 172800 = 20000) := by
  refine ⟨fee_on_time due ret, fee_within_grace due ret, fee_hourly due ret,
    fee_daily due ret, ?_, ?_, ?_, ?_⟩
  · intro h h24
    have hg : Config.GRACE_PERIOD_MINUTES < delayMinutes due ret := by
      unfold effectiveHours at h24
      unfold Config.GRACE_PERIOD_MINUTES at *
      linarith
    rw [fee_daily due ret h hg (le_of_eq h24.symm)]
    · rw [h24]
      norm_num [Config.LATE_FEE_DAILY]
  · norm_num [calculate_late_fee, Config.GRACE_PERIOD_MINUTES]
  · have h : (⌈(13:ℚ)/12⌉ : ℤ) = 2 := by rw [Int.ceil_eq_iff]; norm_num
    norm_num [calculate_late_fee, pyRoundUp_eq_ceil, Config.GRACE_PERIOD_MINUTES,
      Config.LATE_FEE_HOURLY, Config.LATE_FEE_DAILY, h]
  · have h : (⌈(47:ℚ)/24⌉ : ℤ) = 2 := by rw [Int.ceil_eq_iff]; norm_num
    norm_num [calculate_late_fee, pyRoundUp_eq_ceil, Config.GRACE_PERIOD_MINUTES,
      Config.LATE_FEE_HOURLY, Config.LATE_FEE_DAILY, h]

theorem c1_late_fee_piecewise_witness :
    ((0:ℚ) < 7500 ∧ 60 < delayMinutes 0 7500 ∧ effectiveHours 0 7500 < 24) ∧
    calculate_late_fee 0 7500 = (⌈effectiveHours 0 7500⌉ : ℚ) * 2000 :=
  ⟨⟨by norm_num,
    by norm_num [delayMinutes],
    by norm_num [effectiveHours, delayMinutes, Config.GRACE_PERIOD_MINUTES]⟩,
   (c1_late_fee_piecewise 0 7500).2.2.1 (by norm_num)
     (by norm_num [delayMinutes])
     (by norm_num [effectiveHours, delayMinutes, Config.GRACE_PERIOD_MINUTES])⟩

/-- C2 counterexample: `calculate_late_fee` is not monotone in the return
time.  Due at time 0, returning 1470 minutes late (23.5 effective hours,
hourly tier) costs 48000, while returning 1500 minutes late (24 effective
hours, daily tier) costs only 10000. -/
theorem c2_fee_drops_at_daily_boundary :
    (88200 : ℚ) ≤ 90000 ∧
    calculate_late_fee 0 88200 = 48000 ∧
    calculate_late_fee 0 90000 = 10000 ∧
    ¬ calculate_late_fee 0 88200 ≤ calculate_late_fee 0 90000 := by
  have h : (⌈(47:ℚ)/2⌉ : ℤ) = 24 := by rw [Int.ceil_eq_iff]; norm_num
  refine ⟨by norm_num, ?_, ?_, ?_⟩ <;>
    norm_num [calculate_late_fee, pyRoundUp_eq_ceil, Config.GRACE_PERIOD_MINUTES,
      Config.LATE_FEE_HOURLY, Config.LATE_FEE_DAILY, h]

/-- C2 (amended): `calculate_late_fee` is non-decreasing in the return
time as long as the two returns are not separated by the 24-effective-hour
tier boundary: for `r1 ≤ r2`, unless `r1` is charged on the hourly tier
while `r2` is charged on the daily tier, `fee(due, r1) ≤ fee(due, r2)`.
Across that boundary the fee can drop (see the counterexample). -/
theorem c2_late_fee_monotone_within_tier (due r1 r2 : ℚ) (h12 : r1 ≤ r2)
    (hcross : ¬ (hourlyCharged due r1 ∧ dailyCharged due r2)) :
    calculate_late_fee due r1 ≤ calculate_late_fee due r2 := by
  have hd := delayMinutes_mono due r1 r2 h12
  have he := effectiveHours_mono due r1 r2 h12
  rcases le_or_lt r2 due with h2 | h2
  · rw [fee_on_time due r1 (le_trans h12 h2), fee_on_time due r2 h2]
  rcases le_or_lt (delayMinutes due r2) Config.GRACE_PERIOD_MINUTES with hg2 | hg2
  · rw [fee_within_grace due r2 h2 hg2]
    rcases le_or_lt r1 due with h1 | h1
    · rw [fee_on_time due r1 h1]
    · rw [fee_within_grace due r1 h1 (le_trans hd hg2)]
  rcases lt_or_le (effectiveHours due r2) 24 with hh2 | hh2
  · -- r2 in the hourly tier
    rw [fee_hourly due r2 h2 hg2 hh2]
    have hnn : (0:ℚ) ≤ (⌈effectiveHours due r2⌉ : ℚ) * Config.LATE_FEE_HOURLY := by
      rw [← fee_hourly due r2 h2 hg2 hh2]
      exact fee_nonneg due r2
    rcases le_or_lt r1 due with h1 | h1
    · rw [fee_on_time due r1 h1]; exact hnn
    rcases le_or_lt (delayMinutes due r1) Config.GRACE_PERIOD_MINUTES with hg1 | hg1
    · rw [fee_within_grace due r1 h1 hg1]; exact hnn
    have hh1 : effectiveHours due r1 < 24 := lt_of_le_of_lt he hh2
    rw [fee_hourly due r1 h1 hg1 hh1]
    have hc : (⌈effectiveHours due r1⌉ : ℚ) ≤ (⌈effectiveHours due r2⌉ : ℚ) := by
      exact_mod_cast Int.ceil_mono he
    have : (0:ℚ) ≤ Config.LATE_FEE_HOURLY := by norm_num [Config.LATE_FEE_HOURLY]
    exact mul_le_mul_of_nonneg_right hc this
  · -- r2 in the daily tier
    rw [fee_daily due r2 h2 hg2 hh2]
    have hnn : (0:ℚ) ≤ (⌈effectiveHours due r2 / 24⌉ : ℚ) * Config.LATE_FEE_DAILY := by
      rw [← fee_daily due r2 h2 hg2 hh2]
      exact fee_nonneg due r2
    rcases le_or_lt r1 due with h1 | h1
    · rw [fee_on_time due r1 h1]; exact hnn
    rcases le_or_lt (delayMinutes due r1) Config.GRACE_PERIOD_MINUTES with hg1 | hg1
    · rw [fee_within_grace due r1 h1 hg1]; exact hnn
    rcases lt_or_le (effectiveHours due r1) 24 with hh1 | hh1
    · exact absurd ⟨⟨h1, hg1, hh1⟩, ⟨h2, hg2, hh2⟩⟩ hcross
    rw [fee_daily due r1 h1 hg1 hh1]
    have hc : (⌈effectiveHours due r1 / 24⌉ : ℚ) ≤ (⌈effectiveHours due r2 / 24⌉ : ℚ) := by
      exact_mod_cast Int.ceil_mono (div_le_div_of_nonneg_right he (by norm_num))
    have : (0:ℚ) ≤ Config.LATE_FEE_DAILY := by norm_num [Config.LATE_FEE_DAILY]
    exact mul_le_mul_of_nonneg_right hc this

theorem c2_late_fee_monotone_within_tier_witness :
    ((7200:ℚ) ≤ 10800 ∧
      ¬ (hourlyCharged 0 7200 ∧ dailyCharged 0 10800)) ∧
    calculate_late_fee 0 7200 ≤ calculate_late_fee 0 10800 :=
  ⟨⟨by norm_num,
    by
      rintro ⟨-, -, -, hdaily⟩
      norm_num [effectiveHours, delayMinutes, Config.GRACE_PERIOD_MINUTES] at hdaily⟩,
   c2_late_fee_monotone_within_tier 0 7200 10800 (by norm_num)
     (by
       rintro ⟨-, -, -, hdaily⟩
       norm_num [effectiveHours, delayMinutes, Config.GRACE_PERIOD_MINUTES] at hdaily)⟩

/-! ## Data model (relational rows from models/book.py, borrow.py,
user.py, reservation.py, fine.py) -/

structure Book where
  id : Nat
  total_copies : ℤ
  available_copies : ℤ
  borrow_count : ℤ
deriving DecidableEq

inductive BStatus
  | pending_pickup
  | borrowed
  | returned
  | cancelled
deriving DecidableEq

structure Borrow where
  id : Nat
  user_id : Nat
  book_id : Nat
  borrow_date : ℚ
  due_date : ℚ
  return_date : Option ℚ
  status : BStatus
  renewed_count : Nat
  pending_until : Option ℚ
  condition : Option String
  damage_fee : ℚ
  late_fee : ℚ
deriving DecidableEq

structure User where
  id : Nat
  fines : ℚ
  violations : Nat
  is_locked : Bool
deriving DecidableEq

inductive RStatus
  | waiting
  | ready
  | expired
  | cancelled
  | completed
deriving DecidableEq

structure Reservation where
  id : Nat
  user_id : Nat
  book_id : Nat
  status : RStatus
  notified_date : Option ℚ
  hold_until : Option ℚ
  queue_position : Nat
deriving DecidableEq

inductive PayStatus
  | unpaid
  | paid
deriving DecidableEq

/-- One row of the `violations_history` table. -/
structure FineRec where
  id : Nat
  user_id : Nat
  borrow_id : Option Nat
  fine_amount : ℚ
  payment_status : PayStatus
deriving DecidableEq

/-- The relational store: one list per table plus a generator for fresh
row ids (standing in for `uuid.uuid4()`). -/
structure LibState where
  books : List Book
  users : List User
  borrows : List Borrow
  reservations : List Reservation
  violations_history : List FineRec
  next_id : Nat
deriving DecidableEq

def LibState.findBook (s : LibState) (bid : Nat) : Option Book :=
  s.books.find? (fun b => b.id == bid)

def LibState.findUser (s : LibState) (uid : Nat) : Option User :=
  s.users.find? (fun u => u.id == uid)

/-- `UPDATE books SET ... WHERE id = ?` with a full refreshed row. -/
def LibState.setBook (s : LibState) (bk : Book) : LibState :=
  { s with books := s.books.map (fun b => if b.id = bk.id then bk else b) }

def LibState.setBorrow (s : LibState) (b : Borrow) : LibState :=
  { s with borrows := s.borrows.map (fun x => if x.id = b.id then b else x) }

def LibState.setReservation (s : LibState) (r : Reservation) : LibState :=
  { s with reservations :=
      s.reservations.map (fun x => if x.id = r.id then r else x) }

def LibState.writeUserFines (s : LibState) (uid : Nat) (v : ℚ) : LibState :=
  { s with users :=
      s.users.map (fun u => if u.id = uid then { u with fines := v } else u) }

def LibState.writeUserViolations (s : LibState) (uid : Nat) (v : Nat) :
    LibState :=
  { s with users :=
      s.users.map (fun u => if u.id = uid then { u with violations := v } else u) }

def LibState.writeUserLocked (s : LibState) (uid : Nat) (v : Bool) : LibState :=
  { s with users :=
      s.users.map (fun u => if u.id = uid then { u with is_locked := v } else u) }

/-! ## Inventory ledger (models/book.py) -/

/-- `Book.update_available_copies(change)`: apply the delta, clamp below
at 0, clamp above at `total_copies`. -/
def Book.update_available_copies (b : Book) (change : ℤ) : Book :=
  let a1 := b.available_copies + change
  let a2 := if a1 < 0 then 0 else a1
  let a3 := if b.total_copies < a2 then b.total_copies else a2
  { b with available_copies := a3 }

/-- `Book.increment_borrow_count()`. -/
def Book.increment_borrow_count (b : Book) : Book :=
  { b with borrow_count := b.borrow_count + 1 }

/-! ## User account (models/user.py) -/

/-- `User.add_fine(amount)`: bump the in-memory object and write the new
balance back (an absolute column write). -/
def User.add_fine (u : User) (amount : ℚ) (s : LibState) : User × LibState :=
  let u1 := { u with fines := u.fines + amount }
  (u1, s.writeUserFines u.id u1.fines)

/-- `User.add_violation()`. -/
def User.add_violation (u : User) (s : LibState) : User × LibState :=
  let u1 := { u with violations := u.violations + 1 }
  (u1, s.writeUserViolations u.id u1.violations)

/-- `User.unlock()`. -/
def User.unlock (u : User) (s : LibState) : User × LibState :=
  let u1 := { u with is_locked := false }
  (u1, s.writeUserLocked u.id false)

/-- `User.pay_fine(amount)`: reject nonpositive amounts and empty
balances, apply `min(fines, amount)`, mark every unpaid
`violations_history` row of this user paid, unlock when cleared. -/
def User.pay_fine (u : User) (amount : ℚ) (s : LibState) :
    Bool × User × LibState :=
  if amount ≤ 0 ∨ u.fines ≤ 0 then (false, u, s)
  else
    let pay_amount := min u.fines amount
    let u1 := { u with fines := u.fines - pay_amount }
    let s1 := s.writeUserFines u.id u1.fines
    let vh := s1.violations_history.map
      (fun f => if f.user_id = u.id ∧ f.payment_status = PayStatus.unpaid
        then { f with payment_status := PayStatus.paid } else f)
    let s2 := { s1 with violations_history := vh }
    if u1.fines = 0 ∧ u1.is_locked then
      let p := u1.unlock s2
      (true, p.1, p.2)
    else (true, u1, s2)

/-! ## Fine ledger (models/fine.py) -/

/-- `Fine.create(user_id, amount, reason, borrow_id)`: insert one unpaid
`violations_history` row and add the amount to the user's balance (a
relative `fines = fines + ?` write). -/
def Fine.create (user_id : Nat) (amount : ℚ) (borrow_id : Option Nat)
    (s : LibState) : Option Nat × LibState :=
  if amount ≤ 0 then (none, s)
  else
    let fine_id := s.next_id
    let rec1 : FineRec :=
      { id := fine_id, user_id := user_id, borrow_id := borrow_id,
        fine_amount := amount, payment_status := PayStatus.unpaid }
    let s1 := { s with
      violations_history := s.violations_history ++ [rec1],
      next_id := s.next_id + 1 }
    let us := s1.users.map
      (fun u => if u.id = user_id then { u with fines := u.fines + amount }
        else u)
    let s2 := { s1 with users := us }
    (some fine_id, s2)

/-! ## Reservation queue (models/reservation.py) -/

/-- `Reservation.has_active_reservations(book_id)`: `COUNT(*) > 0` over
the waiting reservations of the book. -/
def Reservation.has_active_reservations (s : LibState) (bid : Nat) : Prop :=
  0 < s.reservations.countP
    (fun r => r.book_id == bid && r.status == RStatus.waiting)

instance (s : LibState) (bid : Nat) :
    Decidable (Reservation.has_active_reservations s bid) :=
  Nat.decLt _ _

/-- `Reservation.get_next_in_queue(book_id)`: the waiting reservation of
the book with the lowest queue position (`ORDER BY queue_position ASC
LIMIT 1`). -/
def Reservation.get_next_in_queue (s : LibState) (bid : Nat) :
    Option Reservation :=
  (s.reservations.filter
      (fun r => r.book_id == bid && r.status == RStatus.waiting)).foldl
    (fun acc r =>
      match acc with
      | none => some r
      | some m => if r.queue_position < m.queue_position then some r else some m)
    none

/-- `Reservation.mark_ready(hold_hours)`. -/
def Reservation.mark_ready (r : Reservation) (hold_hours : ℚ) (now : ℚ)
    (s : LibState) : Bool × Reservation × LibState :=
  if r.status ≠ RStatus.waiting then (false, r, s)
  else
    let r1 := { r with
      status := RStatus.ready,
      notified_date := some now,
      hold_until := some (now + hold_hours * 3600) }
    (true, r1, s.setReservation r1)

/-- `Reservation.cancel()`: reject unless waiting or ready; set the
status to cancelled; then — exactly as the source does — test
`self.status == 'waiting'` only *after* `self.status` was reassigned to
`'cancelled'`, so the queue-compaction branch is unreachable. -/
def Reservation.cancel (r : Reservation) (s : LibState) :
    Bool × Reservation × LibState :=
  if ¬ (r.status = RStatus.waiting ∨ r.status = RStatus.ready) then (false, r, s)
  else
    let r1 := { r with status := RStatus.cancelled }
    let s1 := s.setReservation r1
    let s2 :=
      if r1.status = RStatus.waiting then
        let rs := s1.reservations.map (fun q =>
          if q.book_id = r.book_id ∧ q.status = RStatus.waiting ∧
              r.queue_position < q.queue_position
          then { q with queue_position := q.queue_position - 1 } else q)
        { s1 with reservations := rs }
      else s1
    (true, r1, s2)

/-! ## Borrow state machine (models/borrow.py) -/

/-- Stable insertion of a reservation into a list sorted by ascending
queue position (used to model `ORDER BY queue_position ASC`). -/
def insertByPosition (r : Reservation) : List Reservation → List Reservation
  | [] => [r]
  | x :: xs =>
    if r.queue_position ≤ x.queue_position then r :: x :: xs
    else x :: insertByPosition r xs

def sortByPosition (l : List Reservation) : List Reservation :=
  l.foldr insertByPosition []

/-- The queue-reordering block of `Borrow.cancel`: read the waiting
reservations of the book ordered by position, renumber them 1..n, and
write each row back by id. -/
def LibState.reorderWaitingQueue (s : LibState) (bid : Nat) : LibState :=
  let ws := sortByPosition (s.reservations.filter
    (fun r => r.book_id == bid && r.status == RStatus.waiting))
  let assigned := (ws.zip (List.range ws.length)).map
    (fun p => { p.1 with queue_position := p.2 + 1 })
  let rs := s.reservations.map (fun r =>
    match assigned.find? (fun a => a.id == r.id) with
    | some a => a
    | none => r)
  { s with reservations := rs }

/-- The messages `Borrow.create` can return, one per distinct reason
string of the source. -/
inductive CreateMsg
  | bookNotFound
  | notAvailable
  | limitReached
  | alreadyBorrowed
  | outstandingFine (amount : ℚ)
  | reserved (pending_until : ℚ)
deriving DecidableEq

/-- `Borrow.get_active_borrows(user_id)`: the user's rows with status
`borrowed` or `pending_pickup`. -/
def Borrow.get_active_borrows (s : LibState) (uid : Nat) : List Borrow :=
  s.borrows.filter (fun b => b.user_id == uid &&
    (b.status == BStatus.borrowed || b.status == BStatus.pending_pickup))

/-- The success path of `Borrow.create`: insert the `pending_pickup` row,
decrement the available copies (clamped) and bump the popularity
counter. -/
def Borrow.createInsert (uid bid : Nat) (now : ℚ) (book : Book)
    (s : LibState) : Option Nat × CreateMsg × LibState :=
  let pending_until := now + Config.PENDING_PICKUP_HOURS * 3600
  let estimated_due_date := now + Config.BORROW_DURATION_DAYS * 86400
  let borrow_id := s.next_id
  let b : Borrow :=
    { id := borrow_id, user_id := uid, book_id := bid, borrow_date := now,
      due_date := estimated_due_date, return_date := none,
      status := BStatus.pending_pickup, renewed_count := 0,
      pending_until := some pending_until, condition := none,
      damage_fee := 0, late_fee := 0 }
  let s1 := { s with borrows := s.borrows ++ [b], next_id := s.next_id + 1 }
  let s2 := s1.setBook ((book.update_available_copies (-1)).increment_borrow_count)
  (some borrow_id, CreateMsg.reserved pending_until, s2)

/-- `Borrow.create(user_id, book_id)`: the four validations in source
order (book exists and available, borrow limit, duplicate active borrow,
outstanding fine), then the atomic insert-and-decrement. -/
def Borrow.create (uid bid : Nat) (now : ℚ) (s : LibState) :
    Option Nat × CreateMsg × LibState :=
  match s.findBook bid with
  | none => (none, CreateMsg.bookNotFound, s)
  | some book =>
    if book.available_copies ≤ 0 then (none, CreateMsg.notAvailable, s)
    else
      let active_borrows := Borrow.get_active_borrows s uid
      if Config.MAX_BORROW_LIMIT ≤ active_borrows.length then
        (none, CreateMsg.limitReached, s)
      else if active_borrows.any (fun b => b.book_id == bid) then
        (none, CreateMsg.alreadyBorrowed, s)
      else
        match s.findUser uid with
        | some user =>
          if 0 < user.fines then (none, CreateMsg.outstandingFine user.fines, s)
          else Borrow.createInsert uid bid now book s
        | none => Borrow.createInsert uid bid now book s

/-- `Borrow.cancel()`: valid only from `pending_pickup`; set `cancelled`,
return the copy to inventory (clamped), recompute the contiguous waiting
queue for the book and mark the first waiting reservation ready. -/
def Borrow.cancel (b : Borrow) (now : ℚ) (s : LibState) :
    Bool × Borrow × LibState :=
  if b.status ≠ BStatus.pending_pickup then (false, b, s)
  else
    let b1 := { b with status := BStatus.cancelled }
    let s1 := s.setBorrow b1
    let s2 :=
      match s1.findBook b.book_id with
      | some book => s1.setBook (book.update_available_copies 1)
      | none => s1
    let s3 :=
      if Reservation.has_active_reservations s2 b.book_id then
        let sq := s2.reorderWaitingQueue b.book_id
        match Reservation.get_next_in_queue sq b.book_id with
        | some r => (Reservation.mark_ready r 48 now sq).2.2
        | none => sq
      else s2
    (true, b1, s3)

/-- The result messages of `Borrow.approve_pickup`. -/
inductive PickupMsg
  | notPending
  | deadlinePassed
  | confirmed (due : ℚ)
deriving DecidableEq

/-- The confirmation path of `Borrow.approve_pickup`: set `borrowed` and
recompute the real due date from pickup time. -/
def Borrow.confirmPickup (b : Borrow) (now : ℚ) (s : LibState) :
    PickupMsg × Borrow × LibState :=
  let b1 := { b with
    status := BStatus.borrowed,
    due_date := now + Config.BORROW_DURATION_DAYS * 86400 }
  (PickupMsg.confirmed b1.due_date, b1, s.setBorrow b1)

/-- `Borrow.approve_pickup()`: valid only from `pending_pickup`; if the
pickup deadline has passed, auto-cancel and report deadline-exceeded,
otherwise confirm. -/
def Borrow.approve_pickup (b : Borrow) (now : ℚ) (s : LibState) :
    PickupMsg × Borrow × LibState :=
  if b.status ≠ BStatus.pending_pickup then (PickupMsg.notPending, b, s)
  else
    match b.pending_until with
    | some deadline =>
      if deadline < now then
        let c := Borrow.cancel b now s
        (PickupMsg.deadlinePassed, c.2.1, c.2.2)
      else Borrow.confirmPickup b now s
    | none => Borrow.confirmPickup b now s

/-- `Borrow.return_book(condition, book_value)`: valid only from
`borrowed`; compute the fees, set `returned`, restore the copy
(clamped), apply fines (via `add_fine`, `add_violation` and
`Fine.create`) when positive, and promote the next waiting
reservation. -/
def Borrow.return_book (b : Borrow) (condition : String) (book_value : ℚ)
    (now : ℚ) (s : LibState) : Bool × Borrow × LibState :=
  if b.status ≠ BStatus.borrowed then (false, b, s)
  else
    let b1 := { b with
      return_date := some now,
      status := BStatus.returned,
      condition := some condition,
      late_fee := calculate_late_fee b.due_date now,
      damage_fee := calculate_damage_fee condition book_value }
    let s1 := s.setBorrow b1
    let s2 :=
      match s1.findBook b.book_id with
      | some book => s1.setBook (book.update_available_copies 1)
      | none => s1
    let total_fine := b1.late_fee + b1.damage_fee
    let s3 :=
      if 0 < total_fine then
        match s2.findUser b.user_id with
        | some user =>
          let pa := user.add_fine total_fine s2
          let pv := pa.1.add_violation pa.2
          (Fine.create b.user_id total_fine (some b.id) pv.2).2
        | none => s2
      else s2
    let s4 :=
      if Reservation.has_active_reservations s3 b.book_id then
        match Reservation.get_next_in_queue s3 b.book_id with
        | some r => (Reservation.mark_ready r 48 now s3).2.2
        | none => s3
      else s3
    (true, b1, s4)

/-- `Borrow.renew(extension_days)`: valid only from `borrowed`, at most
one renewal, not overdue, and only when nobody is waiting on the book. -/
def Borrow.renew (b : Borrow) (extension_days : ℚ) (now : ℚ) (s : LibState) :
    Bool × Borrow × LibState :=
  if b.status ≠ BStatus.borrowed then (false, b, s)
  else if 1 ≤ b.renewed_count then (false, b, s)
  else if b.due_date < now then (false, b, s)
  else if Reservation.has_active_reservations s b.book_id then (false, b, s)
  else
    let b1 := { b with
      due_date := b.due_date + extension_days * 86400,
      renewed_count := b.renewed_count + 1 }
    (true, b1, s.setBorrow b1)

/-! ## Derived state predicates -/

/-- Sum of the user's unpaid `violations_history` amounts. -/
def unpaidSum (s : LibState) (uid : Nat) : ℚ :=
  ((s.violations_history.filter
      (fun f => f.user_id == uid && f.payment_status == PayStatus.unpaid)).map
    FineRec.fine_amount).sum

/-- The spec's ledger invariant: every user's balance is the sum of their
unpaid violation amounts. -/
def FinesInvariant (s : LibState) : Prop :=
  ∀ u ∈ s.users, u.fines = unpaidSum s u.id

/-- The spec's availability invariant `0 ≤ availableCopies ≤ totalCopies`
for every book of the store. -/
def BookInv (s : LibState) : Prop :=
  ∀ bk ∈ s.books,
    0 ≤ bk.available_copies ∧ bk.available_copies ≤ bk.total_copies

/-! ## Concrete fixtures used by witnesses and counterexamples -/

def emptyState : LibState :=
  { books := [], users := [], borrows := [], reservations := [],
    violations_history := [], next_id := 0 }

def returnedBorrow : Borrow :=
  { id := 0, user_id := 0, book_id := 0, borrow_date := 0, due_date := 0,
    return_date := some 1, status := BStatus.returned, renewed_count := 0,
    pending_until := none, condition := some "good", damage_fee := 0,
    late_fee := 0 }

def resA : Reservation :=
  { id := 10, user_id := 1, book_id := 7, status := RStatus.waiting,
    notified_date := none, hold_until := none, queue_position := 1 }

def resB : Reservation :=
  { id := 11, user_id := 2, book_id := 7, status := RStatus.waiting,
    notified_date := none, hold_until := none, queue_position := 2 }

def resC : Reservation :=
  { id := 12, user_id := 3, book_id := 7, status := RStatus.waiting,
    notified_date := none, hold_until := none, queue_position := 3 }

def queueState : LibState :=
  { books := [], users := [], borrows := [], reservations := [resA, resB, resC],
    violations_history := [], next_id := 20 }

/-! ## C3 -/

/-- C3 (code bug): with waiting reservations A, B, C at positions 1, 2, 3
for book 7, cancelling B marks it cancelled but leaves C at position 3:
the compaction branch of `Reservation.cancel` tests `self.status` only
after it was overwritten with `'cancelled'`, so positions are never
decremented and the remaining queue is 1, 3 — not contiguous. -/
theorem c3_cancel_skips_queue_compaction :
    (Reservation.cancel resB queueState).1 = true ∧
    (Reservation.cancel resB queueState).2.1.status = RStatus.cancelled ∧
    (Reservation.cancel resB queueState).2.2.reservations =
      [resA, { resB with status := RStatus.cancelled }, resC] ∧
    resA.queue_position = 1 ∧ resC.queue_position = 3 := by
  refine ⟨?_, ?_, ?_, rfl, rfl⟩ <;>
    simp [Reservation.cancel, LibState.setReservation, resA, resB, resC,
      queueState]

/-! ## C9 -/

/-- C9: a borrow in a terminal status (`returned` or `cancelled`) is
rejected by `approve_pickup`, `return_book`, `renew` and `cancel`, and
each of them returns the borrow and the store unchanged (in particular
its status, `late_fee` and `damage_fee`). -/
theorem c9_terminal_immutability (b : Borrow) (cond : String)
    (now ext bv : ℚ) (s : LibState)
    (h : b.status = BStatus.returned ∨ b.status = BStatus.cancelled) :
    Borrow.approve_pickup b now s = (PickupMsg.notPending, b, s) ∧
    Borrow.return_book b cond bv now s = (false, b, s) ∧
    Borrow.renew b ext now s = (false, b, s) ∧
    Borrow.cancel b now s = (false, b, s) := by
  rcases h with h | h <;>
    exact ⟨by simp [Borrow.approve_pickup, h], by simp [Borrow.return_book, h],
      by simp [Borrow.renew, h], by simp [Borrow.cancel, h]⟩

theorem c9_terminal_immutability_witness :
    (returnedBorrow.status = BStatus.returned ∨
      returnedBorrow.status = BStatus.cancelled) ∧
    (Borrow.approve_pickup returnedBorrow 5 emptyState =
        (PickupMsg.notPending, returnedBorrow, emptyState) ∧
      Borrow.return_book returnedBorrow "lost" 9 5 emptyState =
        (false, returnedBorrow, emptyState) ∧
      Borrow.renew returnedBorrow 7 5 emptyState =
        (false, returnedBorrow, emptyState) ∧
      Borrow.cancel returnedBorrow 5 emptyState =
        (false, returnedBorrow, emptyState)) :=
  ⟨Or.inl rfl,
    c9_terminal_immutability returnedBorrow "lost" 5 7 9 emptyState (Or.inl rfl)⟩

/-! ## C10 -/

/-- C10: `pay_fine` never drives the balance negative: a nonpositive
amount or a nonpositive balance is rejected with no change; otherwise the
applied amount is `min(balance, amount)`, the new balance is nonnegative,
and paying at least the balance zeroes it exactly. -/
theorem c10_pay_fine_bounds (u : User) (amount : ℚ) (s : LibState) :
    ((amount ≤ 0 ∨ u.fines ≤ 0) → User.pay_fine u amount s = (false, u, s)) ∧
    (0 < amount → 0 < u.fines →
      (User.pay_fine u amount s).2.1.fines = u.fines - min u.fines amount ∧
      0 ≤ (User.pay_fine u amount s).2.1.fines ∧
      (u.fines ≤ amount → (User.pay_fine u amount s).2.1.fines = 0)) := by
  constructor
  · intro h
    unfold User.pay_fine
    rw [if_pos h]
  · intro ha hf
    have hn : ¬ (amount ≤ 0 ∨ u.fines ≤ 0) := by push_neg; exact ⟨ha, hf⟩
    have hmin : min u.fines amount ≤ u.fines := min_le_left _ _
    unfold User.pay_fine
    rw [if_neg hn]
    simp only [User.unlock]
    split_ifs with h2
    · refine ⟨rfl, by simp, fun hge => ?_⟩
      simp [min_eq_left hge]
    · refine ⟨rfl, by simp, fun hge => ?_⟩
      simp [min_eq_left hge]

def payer : User := { id := 9, fines := 100, violations := 1, is_locked := false }

theorem c10_pay_fine_bounds_witness :
    ((0:ℚ) < 150 ∧ (0:ℚ) < payer.fines) ∧
    ((User.pay_fine payer 150 emptyState).2.1.fines =
      payer.fines - min payer.fines 150 ∧
    0 ≤ (User.pay_fine payer 150 emptyState).2.1.fines ∧
    (payer.fines ≤ 150 → (User.pay_fine payer 150 emptyState).2.1.fines = 0)) :=
  ⟨⟨by norm_num, by norm_num [payer]⟩,
    (c10_pay_fine_bounds payer 150 emptyState).2 (by norm_num)
      (by norm_num [payer])⟩

/-! ## C4 -/

def borrower : User := { id := 1, fines := 0, violations := 0, is_locked := false }

def stockBook : Book :=
  { id := 2, total_copies := 3, available_copies := 1, borrow_count := 0 }

def activeLoan : Borrow :=
  { id := 3, user_id := 1, book_id := 2, borrow_date := 0, due_date := 1000,
    return_date := none, status := BStatus.borrowed, renewed_count := 0,
    pending_until := none, condition := none, damage_fee := 0, late_fee := 0 }

def loanState : LibState :=
  { books := [stockBook], users := [borrower], borrows := [activeLoan],
    reservations := [], violations_history := [], next_id := 50 }

def damagedFineRec : FineRec :=
  { id := 50, user_id := 1, borrow_id := some 3, fine_amount := 20000,
    payment_status := PayStatus.unpaid }

/-- C4 (code bug): returning a `borrowed` loan on time with condition
`major_damage` and book value 5000 gives total fee F = 20000; the code
inserts exactly one unpaid ledger row of amount F referencing the borrow
and bumps the violation counter by exactly one, but the user's balance
grows by 2F = 40000 rather than F, because `return_book` both calls
`user.add_fine(F)` and then lets `Fine.create` execute
`UPDATE users SET fines = fines + F` a second time. -/
theorem c4_return_book_double_charges :
    (Borrow.return_book activeLoan "major_damage" 5000 1000 loanState).1 = true ∧
    (Borrow.return_book activeLoan "major_damage" 5000 1000
        loanState).2.1.late_fee = 0 ∧
    (Borrow.return_book activeLoan "major_damage" 5000 1000
        loanState).2.1.damage_fee = 20000 ∧
    (Borrow.return_book activeLoan "major_damage" 5000 1000
        loanState).2.2.users = [{ borrower with fines := 40000, violations := 1 }] ∧
    (Borrow.return_book activeLoan "major_damage" 5000 1000
        loanState).2.2.violations_history = [damagedFineRec] := by
  have hlf : calculate_late_fee (1000:ℚ) 1000 = 0 := fee_on_time 1000 1000 le_rfl
  have hdf : calculate_damage_fee "major_damage" 5000 = 20000 := by
    norm_num +decide [calculate_damage_fee]
  refine ⟨?_, ?_, ?_, ?_, ?_⟩ <;>
    norm_num +decide [Borrow.return_book, activeLoan, loanState, stockBook, borrower,
      hlf, hdf, LibState.setBorrow, LibState.setBook, LibState.findBook,
      LibState.findUser, User.add_fine, User.add_violation, Fine.create,
      LibState.writeUserFines, LibState.writeUserViolations,
      Reservation.has_active_reservations, Reservation.get_next_in_queue,
      Book.update_available_copies, Book.increment_borrow_count,
      damagedFineRec]

/-! ## C5 -/

def debtor : User := { id := 4, fines := 30000, violations := 2, is_locked := false }

def fineRec1 : FineRec :=
  { id := 60, user_id := 4, borrow_id := some 70, fine_amount := 10000,
    payment_status := PayStatus.unpaid }

def fineRec2 : FineRec :=
  { id := 61, user_id := 4, borrow_id := some 71, fine_amount := 20000,
    payment_status := PayStatus.unpaid }

def debtState : LibState :=
  { books := [], users := [debtor], borrows := [], reservations := [],
    violations_history := [fineRec1, fineRec2], next_id := 80 }

/-- C5 (code bug): the balance-equals-sum-of-unpaid invariant holds in
the initial state (30000 = 10000 + 20000), but paying only part of it via
`pay_fine(10000)` breaks it: the balance drops to 20000 while *every* unpaid ledger
row of the user is marked paid, so the unpaid sum becomes 0.
(`return_book` breaks the same invariant by double-adding the fee to the
balance, see the C4 theorem.) -/
theorem c5_pay_fine_breaks_fines_invariant :
    FinesInvariant debtState ∧
    (User.pay_fine debtor 10000 debtState).1 = true ∧
    (User.pay_fine debtor 10000 debtState).2.2.users =
      [{ debtor with fines := 20000 }] ∧
    unpaidSum (User.pay_fine debtor 10000 debtState).2.2 4 = 0 ∧
    ¬ FinesInvariant (User.pay_fine debtor 10000 debtState).2.2 := by
  have husers : (User.pay_fine debtor 10000 debtState).2.2.users =
      [{ debtor with fines := 20000 }] := by
    norm_num +decide [User.pay_fine, debtor, debtState, LibState.writeUserFines,
      fineRec1, fineRec2, User.unlock, LibState.writeUserLocked]
  have hsum : unpaidSum (User.pay_fine debtor 10000 debtState).2.2 4 = 0 := by
    norm_num +decide [User.pay_fine, debtor, debtState, LibState.writeUserFines,
      fineRec1, fineRec2, User.unlock, LibState.writeUserLocked, unpaidSum]
  refine ⟨?_, ?_, husers, hsum, ?_⟩
  · intro u hu
    simp only [debtState, List.mem_singleton] at hu
    subst hu
    norm_num [unpaidSum, debtState, debtor, fineRec1, fineRec2]
  · norm_num +decide [User.pay_fine, debtor, debtState, LibState.writeUserFines,
      fineRec1, fineRec2, User.unlock, LibState.writeUserLocked]
  · intro h
    have hmem : ({ debtor with fines := 20000 } : User) ∈
        (User.pay_fine debtor 10000 debtState).2.2.users := by
      rw [husers]; exact List.mem_singleton.mpr rfl
    have hx := h _ hmem
    dsimp only at hx
    rw [show debtor.id = 4 from rfl, hsum] at hx
    norm_num at hx

/-! ## C6 -/

/-- C6: a user with a strictly positive fine balance can never create a
borrow: `Borrow.create` returns no borrow id and leaves the store
untouched, and when the earlier validations (book exists, available,
under the limit, no duplicate) pass, the message names the outstanding
amount; moreover every validation failure of `create` leaves the store
untouched. -/
theorem c6_outstanding_fine_blocks_create (uid bid : Nat) (now : ℚ)
    (s : LibState) :
    (∀ u, s.findUser uid = some u → 0 < u.fines →
      (Borrow.create uid bid now s).1 = none ∧
      (Borrow.create uid bid now s).2.2 = s ∧
      (∀ book, s.findBook bid = some book → 0 < book.available_copies →
        (Borrow.get_active_borrows s uid).length < Config.MAX_BORROW_LIMIT →
        (∀ b ∈ Borrow.get_active_borrows s uid, b.book_id ≠ bid) →
        (Borrow.create uid bid now s).2.1 = CreateMsg.outstandingFine u.fines)) ∧
    ((Borrow.create uid bid now s).1 = none →
      (Borrow.create uid bid now s).2.2 = s) := by
  constructor
  · intro u hu hf
    have hfail : (Borrow.create uid bid now s).1 = none ∧
        (Borrow.create uid bid now s).2.2 = s := by
      unfold Borrow.create
      rcases hfb : s.findBook bid with _ | book
      · simp [hfb]
      · simp only [hfb]
        split_ifs with ha hl hd
        · exact ⟨rfl, rfl⟩
        · exact ⟨rfl, rfl⟩
        · exact ⟨rfl, rfl⟩
        · rw [hu]
          dsimp only
          rw [if_pos hf]
          exact ⟨rfl, rfl⟩
    refine ⟨hfail.1, hfail.2, ?_⟩
    intro book hbk havail hlim hdup
    have hdupb : ¬ (Borrow.get_active_borrows s uid).any
        (fun b => b.book_id == bid) = true := by
      simp only [List.any_eq_true, beq_iff_eq]
      rintro ⟨b, hb, hbid⟩
      exact hdup b hb hbid
    unfold Borrow.create
    rw [hbk]
    dsimp only
    rw [if_neg (not_le.mpr havail), if_neg (not_le.mpr hlim), if_neg hdupb, hu]
    dsimp only
    rw [if_pos hf]
  · intro hnone
    unfold Borrow.create at hnone ⊢
    rcases hfb : s.findBook bid with _ | book
    · simp [hfb]
    · simp only [hfb] at hnone ⊢
      split_ifs at hnone ⊢ with h1 h2 h3
      · rfl
      · rfl
      · rfl
      · rcases hfu : s.findUser uid with _ | u
        · simp only [hfu] at hnone
          simp [Borrow.createInsert] at hnone
        · simp only [hfu] at hnone ⊢
          split_ifs at hnone ⊢ with h4
          · rfl
          · simp [Borrow.createInsert] at hnone

def finedUser : User := { id := 5, fines := 50000, violations := 1, is_locked := false }

def openBook : Book :=
  { id := 6, total_copies := 2, available_copies := 1, borrow_count := 0 }

def finedState : LibState :=
  { books := [openBook], users := [finedUser], borrows := [], reservations := [],
    violations_history := [], next_id := 90 }

theorem c6_outstanding_fine_blocks_create_witness :
    (finedState.findUser 5 = some finedUser ∧ (0:ℚ) < finedUser.fines) ∧
    ((Borrow.create 5 6 0 finedState).1 = none ∧
      (Borrow.create 5 6 0 finedState).2.2 = finedState ∧
      (Borrow.create 5 6 0 finedState).2.1 =
        CreateMsg.outstandingFine finedUser.fines) :=
  have hu : finedState.findUser 5 = some finedUser := rfl
  have hf : (0:ℚ) < finedUser.fines := by norm_num [finedUser]
  have hmain := (c6_outstanding_fine_blocks_create 5 6 0 finedState).1
    finedUser hu hf
  ⟨⟨hu, hf⟩,
    hmain.1, hmain.2.1,
    hmain.2.2 openBook rfl (by norm_num [openBook])
      (by simp [Borrow.get_active_borrows, finedState, Config.MAX_BORROW_LIMIT])
      (by simp [Borrow.get_active_borrows, finedState])⟩

/-! ## Books-preservation lemmas -/

theorem setBorrow_books (s : LibState) (b : Borrow) :
    (s.setBorrow b).books = s.books := rfl

theorem reorder_books (s : LibState) (bid : Nat) :
    (s.reorderWaitingQueue bid).books = s.books := rfl

theorem mark_ready_books (r : Reservation) (hh now : ℚ) (s : LibState) :
    ((Reservation.mark_ready r hh now s).2.2).books = s.books := by
  unfold Reservation.mark_ready
  split_ifs <;> rfl

theorem fine_create_books (uid : Nat) (amt : ℚ) (bor : Option Nat)
    (s : LibState) : (Fine.create uid amt bor s).2.books = s.books := by
  unfold Fine.create
  split_ifs <;> rfl

theorem add_fine_books (u : User) (amt : ℚ) (s : LibState) :
    (u.add_fine amt s).2.books = s.books := rfl

theorem add_violation_books (u : User) (s : LibState) :
    (u.add_violation s).2.books = s.books := rfl

/-- The return-path promotion block (`has_active_reservations` then
`get_next_in_queue` then `mark_ready`) never touches the books table. -/
theorem promote_books (s : LibState) (bid : Nat) (now : ℚ) :
    (if Reservation.has_active_reservations s bid then
        match Reservation.get_next_in_queue s bid with
        | some r => (Reservation.mark_ready r 48 now s).2.2
        | none => s
      else s).books = s.books := by
  split_ifs with h
  · split
    · rw [mark_ready_books]
    · rfl
  · rfl

/-- The cancel-path promotion block (queue reorder then promotion) never
touches the books table. -/
theorem promoteReorder_books (s : LibState) (bid : Nat) (now : ℚ) :
    (if Reservation.has_active_reservations s bid then
        match Reservation.get_next_in_queue (s.reorderWaitingQueue bid) bid with
        | some r =>
          (Reservation.mark_ready r 48 now (s.reorderWaitingQueue bid)).2.2
        | none => s.reorderWaitingQueue bid
      else s).books = s.books := by
  split_ifs with h
  · split
    · rw [mark_ready_books, reorder_books]
    · rw [reorder_books]
  · rfl

/-- The fine block of `return_book` (`add_fine`, `add_violation`,
`Fine.create`) never touches the books table. -/
theorem fineBlock_books (uid : Nat) (amt : ℚ) (bor : Option Nat)
    (s : LibState) :
    (if 0 < amt then
        match s.findUser uid with
        | some user =>
          (Fine.create uid amt bor
            ((user.add_fine amt s).1.add_violation (user.add_fine amt s).2).2).2
        | none => s
      else s).books = s.books := by
  split_ifs with h
  · split
    · rw [fine_create_books, add_violation_books, add_fine_books]
    · rfl
  · rfl

theorem cancel_result (b : Borrow) (now : ℚ) (s : LibState)
    (hst : b.status = BStatus.pending_pickup) :
    (Borrow.cancel b now s).1 = true ∧
    (Borrow.cancel b now s).2.1 = { b with status := BStatus.cancelled } := by
  unfold Borrow.cancel
  rw [if_neg (by rw [hst]; simp)]
  exact ⟨rfl, rfl⟩

theorem cancel_books_of_found (b : Borrow) (now : ℚ) (s : LibState)
    (book : Book) (hst : b.status = BStatus.pending_pickup)
    (hbk : s.findBook b.book_id = some book) :
    (Borrow.cancel b now s).2.2.books =
      (s.setBook (book.update_available_copies 1)).books := by
  unfold Borrow.cancel
  rw [if_neg (by rw [hst]; simp)]
  dsimp only
  rw [show (s.setBorrow { b with status := BStatus.cancelled }).findBook
    b.book_id = some book from hbk]
  dsimp only
  rw [promoteReorder_books]
  rfl

/-! ## C7 -/

/-- C7: calling `approve_pickup` on a `pending_pickup` borrow whose
deadline lies strictly before `now` does not confirm the pickup: it
reports deadline-exceeded, the borrow ends `cancelled` (never
`borrowed`), and the book row is written back with its available copies
increased by 1 and clamped at `total_copies`. -/
theorem c7_expired_pickup_cancels (b : Borrow) (book : Book)
    (deadline now : ℚ) (s : LibState)
    (hst : b.status = BStatus.pending_pickup)
    (hpu : b.pending_until = some deadline)
    (hlate : deadline < now)
    (hbk : s.findBook b.book_id = some book) :
    (Borrow.approve_pickup b now s).1 = PickupMsg.deadlinePassed ∧
    (Borrow.approve_pickup b now s).2.1.status = BStatus.cancelled ∧
    (Borrow.approve_pickup b now s).2.1.status ≠ BStatus.borrowed ∧
    (Borrow.approve_pickup b now s).2.2.books =
      (s.setBook (book.update_available_copies 1)).books ∧
    (0 ≤ book.available_copies →
      (book.update_available_copies 1).available_copies =
        min (book.available_copies + 1) book.total_copies) := by
  have hap : Borrow.approve_pickup b now s =
      (PickupMsg.deadlinePassed, (Borrow.cancel b now s).2.1,
        (Borrow.cancel b now s).2.2) := by
    unfold Borrow.approve_pickup
    rw [if_neg (by rw [hst]; simp), hpu]
    dsimp only
    rw [if_pos hlate]
  have hcr := cancel_result b now s hst
  refine ⟨by rw [hap], ?_, ?_, ?_, ?_⟩
  · rw [hap]
    dsimp only
    rw [hcr.2]
  · rw [hap]
    dsimp only
    rw [hcr.2]
    simp
  · rw [hap]
    dsimp only
    exact cancel_books_of_found b now s book hst hbk
  · intro h0
    unfold Book.update_available_copies
    dsimp only
    split_ifs <;> omega

def pendingLoan : Borrow :=
  { id := 30, user_id := 1, book_id := 2, borrow_date := 0, due_date := 100,
    return_date := none, status := BStatus.pending_pickup, renewed_count := 0,
    pending_until := some 10, condition := none, damage_fee := 0, late_fee := 0 }

def pickupState : LibState :=
  { books := [stockBook], users := [borrower], borrows := [pendingLoan],
    reservations := [], violations_history := [], next_id := 40 }

theorem c7_expired_pickup_cancels_witness :
    (pendingLoan.status = BStatus.pending_pickup ∧
      pendingLoan.pending_until = some 10 ∧ (10:ℚ) < 20 ∧
      pickupState.findBook pendingLoan.book_id = some stockBook) ∧
    ((Borrow.approve_pickup pendingLoan 20 pickupState).1 =
        PickupMsg.deadlinePassed ∧
      (Borrow.approve_pickup pendingLoan 20 pickupState).2.1.status =
        BStatus.cancelled ∧
      (Borrow.approve_pickup pendingLoan 20 pickupState).2.1.status ≠
        BStatus.borrowed ∧
      (Borrow.approve_pickup pendingLoan 20 pickupState).2.2.books =
        (pickupState.setBook (stockBook.update_available_copies 1)).books ∧
      (0 ≤ stockBook.available_copies →
        (stockBook.update_available_copies 1).available_copies =
          min (stockBook.available_copies + 1) stockBook.total_copies)) :=
  ⟨⟨rfl, rfl, by norm_num, rfl⟩,
    c7_expired_pickup_cancels pendingLoan stockBook 10 20 pickupState rfl rfl
      (by norm_num) rfl⟩

/-! ## C8 -/

theorem update_available_copies_bounds (bk : Book) (c : ℤ)
    (h : 0 ≤ bk.total_copies) :
    0 ≤ (bk.update_available_copies c).available_copies ∧
    (bk.update_available_copies c).available_copies ≤ bk.total_copies := by
  unfold Book.update_available_copies
  dsimp only
  split_ifs <;> omega

theorem bookInv_of_books_eq (s t : LibState) (h : t.books = s.books)
    (hi : BookInv s) : BookInv t := fun bk hbk => hi bk (h ▸ hbk)

theorem setBook_bookInv (s : LibState) (bk : Book) (h : BookInv s)
    (hb : 0 ≤ bk.available_copies ∧ bk.available_copies ≤ bk.total_copies) :
    BookInv (s.setBook bk) := by
  intro x hx
  unfold LibState.setBook at hx
  dsimp only at hx
  rcases List.mem_map.mp hx with ⟨y, hy, hxy⟩
  by_cases hid : y.id = bk.id
  · rw [if_pos hid] at hxy
    exact hxy ▸ hb
  · rw [if_neg hid] at hxy
    exact hxy ▸ h y hy

theorem create_preserves_bookInv (uid bid : Nat) (now : ℚ) (s : LibState)
    (h : BookInv s) : BookInv (Borrow.create uid bid now s).2.2 := by
  unfold Borrow.create
  rcases hfb : s.findBook bid with _ | book
  · simp only [hfb]
    exact h
  · simp only [hfb]
    split_ifs with h1 h2 h3
    · exact h
    · exact h
    · exact h
    · have hmem : book ∈ s.books := List.mem_of_find?_eq_some hfb
      have hbb := h book hmem
      have hbounds := update_available_copies_bounds book (-1)
        (le_trans hbb.1 hbb.2)
      rcases hfu : s.findUser uid with _ | u
      · simp only [hfu]
        unfold Borrow.createInsert
        dsimp only
        exact setBook_bookInv _ _ h hbounds
      · simp only [hfu]
        split_ifs with h4
        · exact h
        · unfold Borrow.createInsert
          dsimp only
          exact setBook_bookInv _ _ h hbounds

theorem cancel_preserves_bookInv (b : Borrow) (now : ℚ) (s : LibState)
    (h : BookInv s) : BookInv (Borrow.cancel b now s).2.2 := by
  unfold Borrow.cancel
  split_ifs with hg
  · exact h
  · dsimp only
    rcases hfb : (s.setBorrow { b with status := BStatus.cancelled }).findBook
        b.book_id with _ | book
    · simp only [hfb]
      exact bookInv_of_books_eq _ _ (promoteReorder_books _ _ _) h
    · simp only [hfb]
      have hmem : book ∈ s.books := List.mem_of_find?_eq_some hfb
      have hbb := h book hmem
      have hbounds := update_available_copies_bounds book 1
        (le_trans hbb.1 hbb.2)
      have hinv2 : BookInv ((s.setBorrow
          { b with status := BStatus.cancelled }).setBook
            (book.update_available_copies 1)) :=
        setBook_bookInv _ _ h hbounds
      exact bookInv_of_books_eq _ _ (promoteReorder_books _ _ _) hinv2

theorem approve_pickup_preserves_bookInv (b : Borrow) (now : ℚ)
    (s : LibState) (h : BookInv s) :
    BookInv (Borrow.approve_pickup b now s).2.2 := by
  unfold Borrow.approve_pickup
  split_ifs with hg
  · exact h
  · rcases hpu : b.pending_until with _ | dl
    · exact bookInv_of_books_eq _ _ rfl h
    · dsimp only
      split_ifs with hlate
      · exact cancel_preserves_bookInv b now s h
      · exact bookInv_of_books_eq _ _ rfl h

theorem return_book_preserves_bookInv (b : Borrow) (cond : String)
    (bv now : ℚ) (s : LibState) (h : BookInv s) :
    BookInv (Borrow.return_book b cond bv now s).2.2 := by
  unfold Borrow.return_book
  split_ifs with hg
  · exact h
  · dsimp only
    rcases hfb : (s.setBorrow { b with
        return_date := some now,
        status := BStatus.returned,
        condition := some cond,
        late_fee := calculate_late_fee b.due_date now,
        damage_fee := calculate_damage_fee cond bv }).findBook b.book_id
      with _ | book
    · simp only [hfb]
      refine bookInv_of_books_eq _ _ ?_ h
      rw [promote_books, fineBlock_books]
      rfl
    · simp only [hfb]
      have hmem : book ∈ s.books := List.mem_of_find?_eq_some hfb
      have hbb := h book hmem
      have hbounds := update_available_copies_bounds book 1
        (le_trans hbb.1 hbb.2)
      have hinv2 : BookInv ((s.setBorrow { b with
          return_date := some now,
          status := BStatus.returned,
          condition := some cond,
          late_fee := calculate_late_fee b.due_date now,
          damage_fee := calculate_damage_fee cond bv }).setBook
            (book.update_available_copies 1)) :=
        setBook_bookInv _ _ h hbounds
      refine bookInv_of_books_eq _ _ ?_ hinv2
      rw [promote_books, fineBlock_books]

/-- C8: the availability invariant `0 ≤ availableCopies ≤ totalCopies`
holds for every book after each core lending operation (`create`,
`approve_pickup`, `cancel`, `return_book`) whenever it held before,
because every adjustment goes through `update_available_copies`, which
clamps its result into `[0, totalCopies]`. -/
theorem c8_availability_invariant (uid bid : Nat) (b : Borrow)
    (cond : String) (bv now : ℚ) (c : ℤ) (bk : Book) (s : LibState)
    (h : BookInv s) :
    BookInv (Borrow.create uid bid now s).2.2 ∧
    BookInv (Borrow.approve_pickup b now s).2.2 ∧
    BookInv (Borrow.cancel b now s).2.2 ∧
    BookInv (Borrow.return_book b cond bv now s).2.2 ∧
    (0 ≤ bk.total_copies →
      0 ≤ (bk.update_available_copies c).available_copies ∧
      (bk.update_available_copies c).available_copies ≤ bk.total_copies) :=
  ⟨create_preserves_bookInv uid bid now s h,
   approve_pickup_preserves_bookInv b now s h,
   cancel_preserves_bookInv b now s h,
   return_book_preserves_bookInv b cond bv now s h,
   update_available_copies_bounds bk c⟩

theorem c8_availability_invariant_witness :
    BookInv pickupState ∧
    (BookInv (Borrow.create 1 2 0 pickupState).2.2 ∧
      BookInv (Borrow.approve_pickup pendingLoan 20 pickupState).2.2 ∧
      BookInv (Borrow.cancel pendingLoan 20 pickupState).2.2 ∧
      BookInv (Borrow.return_book pendingLoan "good" 0 20 pickupState).2.2 ∧
      (0 ≤ stockBook.total_copies →
        0 ≤ (stockBook.update_available_copies (-1)).available_copies ∧
        (stockBook.update_available_copies (-1)).available_copies ≤
          stockBook.total_copies)) :=
  have hinv : BookInv pickupState := by
    intro bk hbk
    simp only [pickupState, List.mem_singleton] at hbk
    subst hbk
    norm_num [stockBook]
  ⟨hinv, c8_availability_invariant 1 2 pendingLoan "good" 0 20 (-1) stockBook
    pickupState hinv⟩

end Library
